import Mathlib

/-!
Verification development for the SirsiMaster component library repository.

The file shallowly embeds the parts of the repository that the checked
properties concern:

* the documentation generator (scripts, `parseComponent`): its two
  extraction regular expressions are embedded as deterministic scanners
  that realize exactly the backtracking behaviour of the JavaScript
  regexes `interface\s+\w+Props\s*\x7b([^\x7d]+)\x7d` and
  `^\s*(\w+)(\?)?:\s*([^;]+)` together with the JSDoc regexes;
* the CI/CD setup wizard (`cicd-pipelines/scripts/setup-pipeline.js`):
  `selectOption`, `confirm`, `getProviderConfig`, the configuration
  object built by `main`, `generateWorkflow`, `generateEnvExample` and
  `getRequiredSecrets`;
* the client-side navigation loaders (sidebar, admin header, universal
  header): base-path resolution, `\x5b\x5bBASE\x5d\x5d` token
  substitution, configuration parsing from data attributes, and the
  fetch-failure fallback of the universal header.

Strings are modelled as `List Char` (`String.data`); machine-level
details (DOM, file system) are modelled as explicit data: an injection
outcome type for DOM replacement, a list of path/content pairs for the
files the wizard writes.
-/

/-- JavaScript `\w` (ASCII word character). -/
def isWordChar (c : Char) : Bool :=
  decide (('a' ≤ c ∧ c ≤ 'z') ∨ ('A' ≤ c ∧ c ≤ 'Z') ∨ ('0' ≤ c ∧ c ≤ '9') ∨ c = '_')

/-- JavaScript `\s` restricted to ASCII (space, tab, newline, carriage
return, vertical tab, form feed). -/
def isSpaceJS (c : Char) : Bool :=
  decide (c = ' ' ∨ c = '\t' ∨ c = '\n' ∨ c = '\r' ∨ c = '\x0b' ∨ c = '\x0c')

/-- JavaScript `String.prototype.trim` on ASCII input. -/
def trimJS (s : List Char) : List Char :=
  ((s.dropWhile isSpaceJS).reverse.dropWhile isSpaceJS).reverse

/-- JavaScript `str.split('\n')`. -/
def splitNl : List Char → List (List Char)
  | [] => [[]]
  | c :: rest =>
    match splitNl rest with
    | [] => [[c]]
    | h :: t => if c == '\n' then [] :: h :: t else (c :: h) :: t

/-- Strip a literal from the front of a list; `none` when it is not there. -/
def stripLead : List Char → List Char → Option (List Char)
  | [], s => some s
  | _ :: _, [] => none
  | a :: l, b :: s => if b == a then stripLead l s else none

/-- Does the second list start with the first one? -/
def beginsWith : List Char → List Char → Bool
  | [], _ => true
  | _ :: _, [] => false
  | a :: p, b :: s => b == a && beginsWith p s

/-- JavaScript `hay.includes(pat)` (substring test). -/
def hasSub : List Char → List Char → Bool
  | [], pat => pat.isEmpty
  | h :: t, pat => beginsWith pat (h :: t) || hasSub t pat

/-- The characters of the keyword `interface`. -/
def ifaceKw : List Char := ['i', 'n', 't', 'e', 'r', 'f', 'a', 'c', 'e']

/-- The characters of the required interface-name suffix `Props`. -/
def propsSuffix : List Char := ['P', 'r', 'o', 'p', 's']

/-- Not a closing brace. -/
def notRbrace (c : Char) : Bool := !(c == '\x7d')

/-- Not a semicolon. -/
def notSemi (c : Char) : Bool := !(c == ';')

/-- The maximal word run at this position matches `\w+Props` followed by
a non-word character: it must end in `Props` and have at least one
character in front of that suffix. -/
def propsWordOk (w : List Char) : Bool :=
  decide (6 ≤ w.length) && decide (w.drop (w.length - 5) = propsSuffix)

/-- One anchored attempt of the doc generator's interface regex
`interface\s+\w+Props\s*\x7b([^\x7d]+)\x7d` at the head of `s`,
returning the captured group (the text between the braces). -/
def tryInterfaceAt (s : List Char) : Option (List Char) :=
  match stripLead ifaceKw s with
  | none => none
  | some r1 =>
    if (r1.takeWhile isSpaceJS).isEmpty then none
    else
      let r2 := r1.dropWhile isSpaceJS
      if propsWordOk (r2.takeWhile isWordChar) then
        match (r2.dropWhile isWordChar).dropWhile isSpaceJS with
        | '\x7b' :: r5 =>
          let cap := r5.takeWhile notRbrace
          if cap.isEmpty then none
          else
            match r5.dropWhile notRbrace with
            | '\x7d' :: _ => some cap
            | _ => none
        | _ => none
      else none

/-- Leftmost match of the interface regex over the whole file
(JavaScript `code.match(...)` without the `g` flag). -/
def findInterfaceCap : List Char → Option (List Char)
  | [] => none
  | c :: t =>
    match tryInterfaceAt (c :: t) with
    | some cap => some cap
    | none => findInterfaceCap t

/-- A single extracted prop: name, required flag, type text. -/
structure PropInfo where
  pname : List Char
  required : Bool
  ptype : List Char
  deriving Repr, DecidableEq

/-- Capture group 3 of the per-line prop regex: `\s*([^;]+)` after the
colon, with the backtracking of the greedy `\s*` against the mandatory
`[^;]+` made explicit. -/
def propTypeGroup (rest : List Char) : Option (List Char) :=
  let w := rest.takeWhile isSpaceJS
  match rest.dropWhile isSpaceJS with
  | c :: r =>
    if c == ';' then
      match w.getLast? with
      | some d => some [d]
      | none => none
    else some (c :: r.takeWhile notSemi)
  | [] =>
    match w.getLast? with
    | some d => some [d]
    | none => none

/-- The doc generator's per-line prop regex `^\s*(\w+)(\?)?:\s*([^;]+)`:
on success it yields the prop with `required` true exactly when the
optional `?` marker is absent, and the trimmed type text. -/
def parsePropLine (line : List Char) : Option PropInfo :=
  let r1 := line.dropWhile isSpaceJS
  let nm := r1.takeWhile isWordChar
  if nm.isEmpty then none
  else
    let r2 := r1.dropWhile isWordChar
    let po : Bool × List Char :=
      match r2 with
      | '?' :: t => (true, t)
      | _ => (false, r2)
    match po.2 with
    | ':' :: rest =>
      match propTypeGroup rest with
      | none => none
      | some g => some ⟨nm, !po.1, trimJS g⟩
    | _ => none

/-- The line filter `filter(line => line.trim())` of `parseComponent`. -/
def keepLine (l : List Char) : Bool := !(trimJS l).isEmpty

/-- The props list produced by the doc generator's `parseComponent`:
capture the interface block, split it on newlines, keep non-blank
lines, and run the per-line prop regex on each. -/
def parseComponentProps (code : List Char) : List PropInfo :=
  match findInterfaceCap code with
  | none => []
  | some cap => ((splitNl cap).filter keepLine).filterMap parsePropLine

/-- Index of the first occurrence of the two-character sequence star
slash, if any. -/
def starSlashIdx : List Char → Option Nat
  | '*' :: '/' :: _ => some 0
  | _ :: t => (starSlashIdx t).map (· + 1)
  | [] => none

/-- The characters opening a JSDoc block. -/
def docStart : List Char := ['/', '*', '*']

/-- One anchored attempt of the JSDoc block regex
`\/\*\*\s*\n([^*]|\*(?!\/))*\*\//` at the head of `s`, returning the
whole matched comment. -/
def tryDocAt (s : List Char) : Option (List Char) :=
  match stripLead docStart s with
  | none => none
  | some r1 =>
    if (r1.takeWhile isSpaceJS).contains '\n' then
      match starSlashIdx r1 with
      | some n => some (docStart ++ r1.take (n + 2))
      | none => none
    else none

/-- Leftmost match of the JSDoc block regex. -/
def findDocBlock : List Char → Option (List Char)
  | [] => none
  | c :: t =>
    match tryDocAt (c :: t) with
    | some m => some m
    | none => findDocBlock t

/-- Greedy `[^@\n]+` capture. -/
def descTakeFrom (l : List Char) : List Char :=
  l.takeWhile (fun c => !(c == '@') && !(c == '\n'))

/-- Backtracking of the greedy `\s+` of the description regex against
the mandatory `[^@\n]+`: try the consumed-space counts from `n` down to
one. -/
def descSearch (r1 : List Char) : Nat → Option (List Char)
  | 0 => none
  | n + 1 =>
    match (r1.drop (n + 1)).head? with
    | some c =>
      if !(c == '@') && !(c == '\n') then some (descTakeFrom (r1.drop (n + 1)))
      else descSearch r1 n
    | none => descSearch r1 n

/-- One anchored attempt of the description regex `\*\s+([^@\n]+)`,
returning capture group 1. -/
def tryDescAt (s : List Char) : Option (List Char) :=
  match s with
  | '*' :: r1 =>
    let ws := r1.takeWhile isSpaceJS
    if ws.isEmpty then none else descSearch r1 ws.length
  | _ => none

/-- Leftmost match of the description regex. -/
def findDesc : List Char → Option (List Char)
  | [] => none
  | c :: t =>
    match tryDescAt (c :: t) with
    | some g => some g
    | none => findDesc t

/-- The description produced by `parseComponent`: the first JSDoc block
of the file, then the first `\*\s+([^@\n]+)` capture inside it,
trimmed; empty when either regex fails to match. -/
def descOf (code : List Char) : List Char :=
  match findDocBlock code with
  | none => []
  | some doc =>
    match findDesc doc with
    | none => []
    | some g => trimJS g

/-- The in-memory record `parseComponent` builds for one component file
(the `name` field comes from the file path, not the file text, and is
not modelled; `methods` and `examples` are never filled in by the
source). -/
structure ComponentInfo where
  props : List PropInfo
  description : List Char
  methods : List (List Char)
  examples : List (List Char)
  deriving Repr, DecidableEq

/-- The doc generator's `parseComponent` applied to the file text. -/
def parseComponent (code : List Char) : ComponentInfo :=
  { props := parseComponentProps code
    description := descOf code
    methods := []
    examples := [] }

example :
    parseComponentProps
      ("interface ButtonProps \x7b\n  label: string;\n  disabled?: boolean;\n\x7d").data =
      [⟨("label").data, true, ("string").data⟩,
       ⟨("disabled").data, false, ("boolean").data⟩] := by
  decide

example :
    descOf ("/**\n * Button component\n */\nconst x = 1;").data =
      ("* Button component").data := by
  decide

lemma takeWhile_cons_false {p : Char → Bool} {c : Char} (l : List Char) (h : p c = false) :
    (c :: l).takeWhile p = [] := by
  simp [List.takeWhile, h]

lemma dropWhile_cons_false {p : Char → Bool} {c : Char} (l : List Char) (h : p c = false) :
    (c :: l).dropWhile p = c :: l := by
  simp [List.dropWhile, h]

lemma takeWhile_cons_true {p : Char → Bool} {c : Char} (l : List Char) (h : p c = true) :
    (c :: l).takeWhile p = c :: l.takeWhile p := by
  simp [List.takeWhile, h]

lemma dropWhile_cons_true {p : Char → Bool} {c : Char} (l : List Char) (h : p c = true) :
    (c :: l).dropWhile p = l.dropWhile p := by
  simp [List.dropWhile, h]

lemma takeWhile_append_all {p : Char → Bool} :
    ∀ (l r : List Char), (∀ a ∈ l, p a = true) →
      (l ++ r).takeWhile p = l ++ r.takeWhile p
  | [], r, _ => by simp
  | a :: l, r, h => by
    have ha : p a = true := h a (by simp)
    have ih := takeWhile_append_all l r (fun b hb => h b (by simp [hb]))
    simp only [List.cons_append, takeWhile_cons_true _ ha, ih]

lemma dropWhile_append_all {p : Char → Bool} :
    ∀ (l r : List Char), (∀ a ∈ l, p a = true) →
      (l ++ r).dropWhile p = r.dropWhile p
  | [], r, _ => by simp
  | a :: l, r, h => by
    have ha : p a = true := h a (by simp)
    have ih := dropWhile_append_all l r (fun b hb => h b (by simp [hb]))
    simp only [List.cons_append, dropWhile_cons_true _ ha, ih]

lemma stripLead_append : ∀ (l s : List Char), stripLead l (l ++ s) = some s
  | [], s => rfl
  | a :: l, s => by simp [stripLead, stripLead_append l s]

lemma spaceJS_cases {c : Char} (h : isSpaceJS c = true) :
    c = ' ' ∨ c = '\t' ∨ c = '\n' ∨ c = '\r' ∨ c = '\x0b' ∨ c = '\x0c' := by
  simpa [isSpaceJS, decide_eq_true_eq] using h

lemma word_not_space {c : Char} (h : isWordChar c = true) : isSpaceJS c = false := by
  cases hs : isSpaceJS c with
  | false => rfl
  | true =>
    exfalso
    rcases spaceJS_cases hs with rfl | rfl | rfl | rfl | rfl | rfl <;>
      exact absurd h (by decide)

lemma word_ne {c x : Char} (h : isWordChar c = true) (hx : isWordChar x = false) : c ≠ x := by
  intro e
  subst e
  simp [h] at hx

lemma splitNl_ne_nil (l : List Char) : splitNl l ≠ [] := by
  cases l with
  | nil => simp [splitNl]
  | cons c rest =>
    simp only [splitNl]
    split
    · simp
    · split <;> simp

lemma splitNl_cons_nl (l : List Char) : splitNl ('\n' :: l) = [] :: splitNl l := by
  simp only [splitNl]
  cases h : splitNl l with
  | nil => exact absurd h (splitNl_ne_nil l)
  | cons a t => simp

lemma splitNl_no_nl_append {l : List Char} (h : ∀ a ∈ l, (a == '\n') = false) :
    ∀ r : List Char, splitNl (l ++ '\n' :: r) = l :: splitNl r := by
  induction l with
  | nil => intro r; simpa using splitNl_cons_nl r
  | cons a l ih =>
    intro r
    have ha : (a == '\n') = false := h a (by simp)
    have ih2 := ih (fun b hb => h b (by simp [hb])) r
    simp only [List.cons_append, splitNl, List.append_eq, ih2, ha]
    simp

/-- Head of the list (if any) is not a JS space. -/
def headSpaceFree : List Char → Bool
  | [] => true
  | c :: _ => !(isSpaceJS c)

/-- A declared prop of a flat `Props` interface. -/
structure PropDecl where
  pname : List Char
  optional : Bool
  ptype : List Char
  deriving Repr, DecidableEq

/-- A legal TypeScript identifier for the purposes of the doc
generator's regexes: non-empty, made of word characters. -/
def GoodName (n : List Char) : Prop := n ≠ [] ∧ ∀ c ∈ n, isWordChar c = true

/-- A type annotation the flat-interface rendering allows: non-empty,
free of semicolons, closing braces and newlines, and not starting or
ending in a space. -/
def GoodType (t : List Char) : Prop :=
  t ≠ [] ∧ (∀ c ∈ t, (c == ';') = false ∧ (c == '\x7d') = false ∧ (c == '\n') = false) ∧
    headSpaceFree t = true ∧ headSpaceFree t.reverse = true


instance (n : List Char) : Decidable (GoodName n) := by
  unfold GoodName; infer_instance

instance (t : List Char) : Decidable (GoodType t) := by
  unfold GoodType; infer_instance

/-- The `?` marker of an optional prop. -/
def renderOptMark : Bool → List Char
  | true => ['?']
  | false => []

/-- One rendered declaration line `  name?: type;` of a flat interface. -/
def renderLine (d : PropDecl) : List Char :=
  ' ' :: (' ' :: (d.pname ++ (renderOptMark d.optional ++ (':' :: (' ' :: (d.ptype ++ [';']))))))

/-- The newline-terminated declaration lines of a flat interface body. -/
def joinLines : List PropDecl → List Char
  | [] => []
  | d :: ds => renderLine d ++ ('\n' :: joinLines ds)

/-- A component file that consists of a flat `<Name>Props` interface in
the standard one-declaration-per-line form. -/
def renderFlat (nm : List Char) (ds : List PropDecl) : List Char :=
  ifaceKw ++ (' ' :: (nm ++ (propsSuffix ++ (' ' :: ('\x7b' :: (('\n' :: joinLines ds) ++ ['\x7d']))))))

lemma parsePropLine_renderLine (d : PropDecl) (hn : GoodName d.pname) (ht : GoodType d.ptype) :
    parsePropLine (renderLine d) = some ⟨d.pname, !d.optional, d.ptype⟩ := by
  obtain ⟨hne, hword⟩ := hn
  obtain ⟨tne, tchars, thead, tlast⟩ := ht
  obtain ⟨c0, nm', hnm⟩ : ∃ c0 nm', d.pname = c0 :: nm' := by
    cases h : d.pname with
    | nil => exact absurd h hne
    | cons a l => exact ⟨a, l, rfl⟩
  obtain ⟨t0, ty', hty⟩ : ∃ t0 ty', d.ptype = t0 :: ty' := by
    cases h : d.ptype with
    | nil => exact absurd h tne
    | cons a l => exact ⟨a, l, rfl⟩
  have hc0w : isWordChar c0 = true := hword c0 (by rw [hnm]; simp)
  have hc0s : isSpaceJS c0 = false := word_not_space hc0w
  have ht0s : isSpaceJS t0 = false := by
    rw [hty] at thead; simpa [headSpaceFree] using thead
  have ht0ne : t0 ≠ ';' := by
    have := (tchars t0 (by rw [hty]; simp)).1
    simpa using this
  set Y : List Char :=
    renderOptMark d.optional ++ (':' :: (' ' :: (d.ptype ++ [';']))) with hY
  have hdropLine : (renderLine d).dropWhile isSpaceJS = d.pname ++ Y := by
    rw [renderLine, dropWhile_cons_true _ (by decide), dropWhile_cons_true _ (by decide), ← hY,
      hnm, List.cons_append, dropWhile_cons_false _ hc0s]
  have hYtake : Y.takeWhile isWordChar = [] := by
    cases hopt : d.optional <;>
      simp only [hY, hopt, renderOptMark, List.nil_append, List.singleton_append] <;>
      rw [takeWhile_cons_false _ (by decide)]
  have hYdrop : Y.dropWhile isWordChar = Y := by
    cases hopt : d.optional <;>
      simp only [hY, hopt, renderOptMark, List.nil_append, List.singleton_append] <;>
      rw [dropWhile_cons_false _ (by decide)]
  have htake : (d.pname ++ Y).takeWhile isWordChar = d.pname := by
    rw [takeWhile_append_all _ _ hword, hYtake, List.append_nil]
  have hdrop2 : (d.pname ++ Y).dropWhile isWordChar = Y := by
    rw [dropWhile_append_all _ _ hword, hYdrop]
  have htakeTy : (ty' ++ [';']).takeWhile notSemi = ty' := by
    have hallTy : ∀ a ∈ ty', notSemi a = true := by
      intro a ha
      have := (tchars a (by rw [hty]; simp [ha])).1
      simp [notSemi, this]
    rw [takeWhile_append_all _ _ hallTy, takeWhile_cons_false _ (by decide), List.append_nil]
  have hgroup : propTypeGroup (' ' :: (d.ptype ++ [';'])) = some d.ptype := by
    have hdropTy : List.dropWhile isSpaceJS (t0 :: (ty' ++ [';'])) = t0 :: (ty' ++ [';']) :=
      dropWhile_cons_false _ ht0s
    rw [propTypeGroup]
    simp only [hty, List.cons_append,
      dropWhile_cons_true _ (show isSpaceJS ' ' = true by decide), hdropTy]
    simp [ht0ne, htakeTy]
  have htrimTy : trimJS d.ptype = d.ptype := by
    obtain ⟨r0, rr, hrev⟩ : ∃ r0 rr, d.ptype.reverse = r0 :: rr := by
      cases h : d.ptype.reverse with
      | nil => exact absurd (by simpa using congrArg List.reverse h) tne
      | cons a l => exact ⟨a, l, rfl⟩
    have hr0s : isSpaceJS r0 = false := by
      rw [hrev] at tlast; simpa [headSpaceFree] using tlast
    have h1 : List.dropWhile isSpaceJS (t0 :: ty') = t0 :: ty' := dropWhile_cons_false _ ht0s
    rw [trimJS, hty, h1, ← hty, hrev, dropWhile_cons_false _ hr0s, ← hrev, List.reverse_reverse]
  have hnmE : d.pname.isEmpty = false := by rw [hnm]; simp
  simp only [parsePropLine, hdropLine, htake, hdrop2, hnmE, Bool.false_eq_true, if_false]
  cases hopt : d.optional with
  | true =>
    simp only [hY, hopt, renderOptMark, List.singleton_append]
    simp [hgroup, htrimTy]
  | false =>
    simp only [hY, hopt, renderOptMark, List.nil_append]
    simp [hgroup, htrimTy]

lemma renderLine_mem {d : PropDecl} {a : Char} (ha : a ∈ renderLine d) :
    a = ' ' ∨ a ∈ d.pname ∨ a ∈ renderOptMark d.optional ∨ a = ':' ∨ a ∈ d.ptype ∨ a = ';' := by
  simp only [renderLine, List.mem_cons, List.mem_append] at ha
  tauto

lemma renderLine_no_nl (d : PropDecl) (hn : GoodName d.pname) (ht : GoodType d.ptype) :
    ∀ a ∈ renderLine d, (a == '\n') = false := by
  intro a ha
  rcases renderLine_mem ha with rfl | h | h | rfl | h | rfl
  · decide
  · exact beq_eq_false_iff_ne.mpr (word_ne (hn.2 a h) (by decide))
  · cases hopt : d.optional with
    | true => rw [hopt] at h; simp only [renderOptMark, List.mem_singleton] at h; subst h; decide
    | false => rw [hopt] at h; simp [renderOptMark] at h
  · decide
  · exact (ht.2.1 a h).2.2
  · decide

lemma renderLine_no_rbrace (d : PropDecl) (hn : GoodName d.pname) (ht : GoodType d.ptype) :
    ∀ a ∈ renderLine d, notRbrace a = true := by
  intro a ha
  rcases renderLine_mem ha with rfl | h | h | rfl | h | rfl
  · decide
  · have := word_ne (hn.2 a h) (show isWordChar '\x7d' = false by decide)
    simp [notRbrace, this]
  · cases hopt : d.optional with
    | true => rw [hopt] at h; simp only [renderOptMark, List.mem_singleton] at h; subst h; decide
    | false => rw [hopt] at h; simp [renderOptMark] at h
  · decide
  · have := (ht.2.1 a h).2.1
    simp [notRbrace, this]
  · decide

lemma joinLines_no_rbrace (ds : List PropDecl)
    (h : ∀ d ∈ ds, GoodName d.pname ∧ GoodType d.ptype) :
    ∀ a ∈ ('\n' :: joinLines ds), notRbrace a = true := by
  induction ds with
  | nil =>
    intro a ha
    simp only [joinLines, List.mem_singleton] at ha
    subst ha; decide
  | cons d ds ih =>
    intro a ha
    have hd := h d (by simp)
    simp only [joinLines, List.mem_cons, List.mem_append] at ha
    rcases ha with rfl | h1 | h1
    · decide
    · exact renderLine_no_rbrace d hd.1 hd.2 a h1
    · exact ih (fun e he => h e (by simp [he])) a (by simpa using h1)

lemma trimJS_eq_nil_all {l : List Char} (h : trimJS l = []) : ∀ c ∈ l, isSpaceJS c = true := by
  intro c hc
  have h1 : (l.dropWhile isSpaceJS).reverse.dropWhile isSpaceJS = [] := by
    have := congrArg List.reverse h
    simpa [trimJS] using this
  have h2 : ∀ x ∈ (l.dropWhile isSpaceJS).reverse, isSpaceJS x = true :=
    List.dropWhile_eq_nil_iff.mp h1
  have h3 : ∀ x ∈ l.dropWhile isSpaceJS, isSpaceJS x = true := by
    intro x hx
    exact h2 x (by simpa using hx)
  have h4 : l = l.takeWhile isSpaceJS ++ l.dropWhile isSpaceJS :=
    (List.takeWhile_append_dropWhile isSpaceJS l).symm
  rw [h4] at hc
  rcases List.mem_append.mp hc with h5 | h5
  · exact List.mem_takeWhile_imp h5
  · exact h3 c h5

lemma keepLine_renderLine (d : PropDecl) : keepLine (renderLine d) = true := by
  rw [keepLine]
  cases htr : trimJS (renderLine d) with
  | nil =>
    exfalso
    have hmem : ';' ∈ renderLine d := by simp [renderLine]
    have := trimJS_eq_nil_all htr ';' hmem
    exact absurd this (by decide)
  | cons a t => simp

lemma splitNl_joinLines (ds : List PropDecl)
    (h : ∀ d ∈ ds, GoodName d.pname ∧ GoodType d.ptype) :
    splitNl (joinLines ds) = ds.map renderLine ++ [[]] := by
  induction ds with
  | nil => simp [joinLines, splitNl]
  | cons d ds ih =>
    have hd := h d (by simp)
    have hnl := renderLine_no_nl d hd.1 hd.2
    rw [joinLines, splitNl_no_nl_append hnl, ih (fun e he => h e (by simp [he]))]
    simp

lemma filter_keepLine (ds : List PropDecl) :
    (([] : List Char) :: (ds.map renderLine ++ [[]])).filter keepLine = ds.map renderLine := by
  have h0 : keepLine ([] : List Char) = false := by decide
  rw [List.filter_cons_of_neg (by simp [h0]), List.filter_append]
  rw [List.filter_cons_of_neg (by simp [h0]), List.filter_nil, List.append_nil]
  apply List.filter_eq_self.mpr
  intro a ha
  obtain ⟨d, _, rfl⟩ := List.mem_map.mp ha
  exact keepLine_renderLine d

lemma filterMap_parse (ds : List PropDecl)
    (h : ∀ d ∈ ds, GoodName d.pname ∧ GoodType d.ptype) :
    (ds.map renderLine).filterMap parsePropLine =
      ds.map (fun d => PropInfo.mk d.pname (!d.optional) d.ptype) := by
  induction ds with
  | nil => simp
  | cons d ds ih =>
    have hd := h d (by simp)
    rw [List.map_cons, List.filterMap_cons, parsePropLine_renderLine d hd.1 hd.2,
      ih (fun e he => h e (by simp [he])), List.map_cons]

lemma tryInterfaceAt_renderFlat (nm : List Char) (ds : List PropDecl) (hn : GoodName nm)
    (h : ∀ d ∈ ds, GoodName d.pname ∧ GoodType d.ptype) :
    tryInterfaceAt (renderFlat nm ds) = some ('\n' :: joinLines ds) := by
  obtain ⟨hne, hword⟩ := hn
  obtain ⟨c0, nm', hnm⟩ : ∃ c0 nm', nm = c0 :: nm' := by
    cases hh : nm with
    | nil => exact absurd hh hne
    | cons a l => exact ⟨a, l, rfl⟩
  have hc0s : isSpaceJS c0 = false := word_not_space (hword c0 (by rw [hnm]; simp))
  set X : List Char := '\x7b' :: (('\n' :: joinLines ds) ++ ['\x7d']) with hX
  set R : List Char := ' ' :: (nm ++ (propsSuffix ++ (' ' :: X))) with hR
  have hRF : renderFlat nm ds = ifaceKw ++ R := by rw [renderFlat]
  have hws : R.takeWhile isSpaceJS = [' '] := by
    rw [hR, takeWhile_cons_true _ (by decide), hnm, List.cons_append,
      takeWhile_cons_false _ hc0s]
  have hr2 : R.dropWhile isSpaceJS = nm ++ (propsSuffix ++ (' ' :: X)) := by
    rw [hR, dropWhile_cons_true _ (by decide)]
    conv_lhs => rw [hnm]
    rw [List.cons_append, dropWhile_cons_false _ hc0s, ← List.cons_append, ← hnm]
  have hsw : ∀ a ∈ propsSuffix, isWordChar a = true := by decide
  have htw : (nm ++ (propsSuffix ++ (' ' :: X))).takeWhile isWordChar = nm ++ propsSuffix := by
    rw [takeWhile_append_all _ _ hword, takeWhile_append_all _ _ hsw,
      takeWhile_cons_false _ (by decide), List.append_nil]
  have hok : propsWordOk (nm ++ propsSuffix) = true := by
    have hlen : (nm ++ propsSuffix).length = nm.length + 5 := by simp [propsSuffix]
    have hpos : 1 ≤ nm.length := by rw [hnm]; simp
    have hdrop5 : nm.length + 5 - 5 = nm.length := by omega
    rw [propsWordOk]
    simp only [Bool.and_eq_true, decide_eq_true_eq, hlen, hdrop5]
    exact ⟨by omega, List.drop_left nm propsSuffix⟩
  have hdw : (nm ++ (propsSuffix ++ (' ' :: X))).dropWhile isWordChar = ' ' :: X := by
    rw [dropWhile_append_all _ _ hword, dropWhile_append_all _ _ hsw,
      dropWhile_cons_false _ (by decide)]
  have hdsp : (' ' :: X).dropWhile isSpaceJS = X := by
    rw [dropWhile_cons_true _ (by decide), hX, dropWhile_cons_false _ (by decide)]
  have hnrb := joinLines_no_rbrace ds h
  have hcap : (('\n' :: joinLines ds) ++ ['\x7d']).takeWhile notRbrace = '\n' :: joinLines ds := by
    rw [takeWhile_append_all _ _ hnrb, takeWhile_cons_false _ (by decide), List.append_nil]
  have hrest : (('\n' :: joinLines ds) ++ ['\x7d']).dropWhile notRbrace = ['\x7d'] := by
    rw [dropWhile_append_all _ _ hnrb, dropWhile_cons_false _ (by decide)]
  rw [hRF, tryInterfaceAt.eq_def, stripLead_append]
  simp only [hws, hr2, htw, hok, hdw, hdsp, hX, hcap, hrest]
  simp

lemma findInterfaceCap_renderFlat (nm : List Char) (ds : List PropDecl) (hn : GoodName nm)
    (h : ∀ d ∈ ds, GoodName d.pname ∧ GoodType d.ptype) :
    findInterfaceCap (renderFlat nm ds) = some ('\n' :: joinLines ds) := by
  obtain ⟨t, htcons⟩ : ∃ t, renderFlat nm ds = 'i' :: t := by
    rw [renderFlat, ifaceKw]
    exact ⟨_, rfl⟩
  rw [htcons, findInterfaceCap, ← htcons, tryInterfaceAt_renderFlat nm ds hn h]

/-- C1 counterexample: a component file whose `CardProps` interface
contains a nested object-literal field `style`. The claim asserts the
returned props list contains every field declared in the block, but the
declared field `b` is missing from the result: the interface regex
`interface\s+\w+Props\s*\x7b([^\x7d]+)\x7d` stops its capture at the
first closing brace, which here is the brace closing the nested object
literal, so everything after the nested field is dropped (and the
nested field's recorded type is the truncated text). -/
theorem parseComponentProps_nested_drops_field :
    parseComponentProps
        (("interface CardProps \x7b\n  a: string;\n  style?: \x7b color: string \x7d;\n  b: boolean;\n\x7d").data) =
      [⟨("a").data, true, ("string").data⟩,
       ⟨("style").data, false, ("\x7b color: string").data⟩] ∧
    ∀ p ∈ parseComponentProps
        (("interface CardProps \x7b\n  a: string;\n  style?: \x7b color: string \x7d;\n  b: boolean;\n\x7d").data),
      p.pname ≠ ("b").data := by
  decide

/-- C1 (amended; the original claim fails on interfaces with a nested
object-literal field, see `parseComponentProps_nested_drops_field`):
for every component source file that consists of a flat `<Name>Props`
interface block in the standard one-declaration-per-line form
`name?: type;` (word-character names; types free of semicolons, closing
braces and newlines, and not starting or ending in a space), the doc
generator's `parseComponent` returns a props list with exactly the
declared fields, in order, each with its declared name and with
`required = true` exactly when the declaration has no `?` marker. -/
theorem parseComponent_flat_interface (nm : List Char) (ds : List PropDecl)
    (hn : GoodName nm) (h : ∀ d ∈ ds, GoodName d.pname ∧ GoodType d.ptype) :
    (parseComponent (renderFlat nm ds)).props =
      ds.map (fun d => PropInfo.mk d.pname (!d.optional) d.ptype) := by
  rw [parseComponent]
  simp only [parseComponentProps, findInterfaceCap_renderFlat nm ds hn h]
  rw [splitNl_cons_nl, splitNl_joinLines ds h, filter_keepLine, filterMap_parse ds h]

/-- Witness for `parseComponent_flat_interface` at a concrete flat
interface with one required and one optional field. -/
theorem parseComponent_flat_interface_witness :
    (parseComponent
        (renderFlat (("Button").data)
          [⟨("label").data, false, ("string").data⟩,
           ⟨("disabled").data, true, ("boolean").data⟩])).props =
      [⟨("label").data, true, ("string").data⟩,
       ⟨("disabled").data, false, ("boolean").data⟩] := by
  have h := parseComponent_flat_interface (("Button").data)
    [⟨("label").data, false, ("string").data⟩,
     ⟨("disabled").data, true, ("boolean").data⟩]
    (by decide) (by decide)
  simpa using h

/-- C7: for every component source file, when the extraction regexes
fail to match, `parseComponent` still returns normally with the
corresponding field blank: an empty props list when the `<Name>Props`
interface regex has no match, and an empty description string when the
JSDoc block regex has no match. (`parseComponent` is a total function
of the file text, so no exception and no missing field is possible, and
the `methods` and `examples` fields are always present and empty.) -/
theorem parseComponent_blank_on_no_match (code : List Char) :
    (findInterfaceCap code = none → (parseComponent code).props = []) ∧
    (findDocBlock code = none → (parseComponent code).description = []) := by
  constructor
  · intro h
    simp [parseComponent, parseComponentProps, h]
  · intro h
    simp [parseComponent, descOf, h]

/-- Witness for `parseComponent_blank_on_no_match` on a file with
neither a `Props` interface nor a JSDoc comment. -/
theorem parseComponent_blank_on_no_match_witness :
    (parseComponent (("const x = 1;").data)).props = [] ∧
    (parseComponent (("const x = 1;").data)).description = [] := by
  have h1 : findInterfaceCap (("const x = 1;").data) = none := by decide
  have h2 : findDocBlock (("const x = 1;").data) = none := by decide
  exact ⟨(parseComponent_blank_on_no_match _).1 h1,
    (parseComponent_blank_on_no_match _).2 h2⟩

/-- JavaScript `a || b` on strings (empty string is falsy). -/
def jsOr (s d : String) : String := if s = "" then d else s

/-- JavaScript `s.split(' ')[0]`. -/
def firstWord (s : String) : String := ⟨s.data.takeWhile (fun c => !(c == ' '))⟩

/-- ASCII decimal digit. -/
def isDecDigit (c : Char) : Bool := decide ('0' ≤ c ∧ c ≤ '9')

/-- ASCII hexadecimal digit. -/
def isHexDigit (c : Char) : Bool :=
  isDecDigit c || decide ('a' ≤ c ∧ c ≤ 'f') || decide ('A' ≤ c ∧ c ≤ 'F')

/-- Value of a decimal digit. -/
def decVal (c : Char) : Nat := c.toNat - ('0').toNat

/-- Value of a hexadecimal digit. -/
def hexVal (c : Char) : Nat :=
  if isDecDigit c then decVal c
  else if decide ('a' ≤ c ∧ c ≤ 'f') then c.toNat - ('a').toNat + 10
  else c.toNat - ('A').toNat + 10

/-- Accumulate digit values in the given base. -/
def natOfDigits (base : Nat) (f : Char → Nat) (l : List Char) : Nat :=
  l.foldl (fun acc c => acc * base + f c) 0

/-- JavaScript `parseInt(s)` with no radix argument: skip leading
whitespace, optional sign, `0x`/`0X` prefix selects base 16, then the
longest digit run; `none` models `NaN` (no digits). -/
def parseIntJS (s : String) : Option Int :=
  let l := s.data.dropWhile isSpaceJS
  let sl : Int × List Char :=
    match l with
    | '-' :: t => (-1, t)
    | '+' :: t => (1, t)
    | _ => (1, l)
  match sl.2 with
  | '0' :: 'x' :: t =>
    let ds := t.takeWhile isHexDigit
    if ds.isEmpty then none else some (sl.1 * (natOfDigits 16 hexVal ds : Int))
  | '0' :: 'X' :: t =>
    let ds := t.takeWhile isHexDigit
    if ds.isEmpty then none else some (sl.1 * (natOfDigits 16 hexVal ds : Int))
  | r =>
    let ds := r.takeWhile isDecDigit
    if ds.isEmpty then none else some (sl.1 * (natOfDigits 10 decVal ds : Int))

/-- The wizard's `selectOption`: parse the answer as an integer, use it
as a one-based index when in range, otherwise fall back to the first
option (`none` only when the options list is empty, where the source
would return `undefined`). -/
def selectOption (options : List String) (answer : String) : Option String :=
  match parseIntJS answer with
  | some k =>
    if 0 ≤ k - 1 ∧ k - 1 < (options.length : Int) then options[(k - 1).toNat]?
    else options[0]?
  | none => options[0]?

/-- ASCII `toLowerCase` on one character. -/
def charLowerJS (c : Char) : Char :=
  if 'A' ≤ c ∧ c ≤ 'Z' then Char.ofNat (c.toNat + 32) else c

/-- ASCII `toUpperCase` on one character. -/
def charUpperJS (c : Char) : Char :=
  if 'a' ≤ c ∧ c ≤ 'z' then Char.ofNat (c.toNat - 32) else c

/-- JavaScript `s.toLowerCase()` on ASCII input. -/
def toLowerJS (s : String) : String := ⟨s.data.map charLowerJS⟩

/-- JavaScript `s.toUpperCase()` on ASCII input. -/
def toUpperJS (s : String) : String := ⟨s.data.map charUpperJS⟩

/-- JavaScript `Array.prototype.join`. -/
def joinSep (sep : String) : List String → String
  | [] => ""
  | [x] => x
  | x :: y :: t => x ++ sep ++ joinSep sep (y :: t)

/-- The wizard's `confirm`: empty answer gives the default, otherwise
the lowercased answer must be `y` or `yes`. -/
def confirmJS (answer : String) (dflt : Bool) : Bool :=
  if answer = "" then dflt
  else (toLowerJS answer == "y") || (toLowerJS answer == "yes")

/-- The production provider menu of the wizard. -/
def prodProviderOptions : List String :=
  ["firebase - Firebase Hosting", "aws - AWS S3 + CloudFront",
   "azure - Azure Storage + CDN", "vercel - Vercel", "netlify - Netlify",
   "gcp - Google Cloud Platform", "custom - Custom/Self-hosted"]

/-- The staging provider menu of the wizard. -/
def stagingProviderOptions : List String :=
  ["firebase - Firebase Hosting", "aws - AWS S3 + CloudFront",
   "azure - Azure Storage + CDN", "vercel - Vercel", "netlify - Netlify",
   "same - Same as production"]

/-- The development provider menu of the wizard. -/
def devProviderOptions : List String :=
  ["firebase - Firebase Hosting", "vercel - Vercel", "netlify - Netlify",
   "local - Local only"]

/-- The project type menu of the wizard. -/
def projectTypeOptions : List String :=
  ["web - Static website or SPA", "api - Backend API service",
   "fullstack - Full-stack application", "mobile - Mobile application",
   "desktop - Desktop application"]

/-- The framework menu of the wizard. -/
def frameworkOptions : List String :=
  ["react - React", "nextjs - Next.js", "vue - Vue.js", "angular - Angular",
   "svelte - Svelte/SvelteKit", "vanilla - Vanilla HTML/CSS/JS", "node - Node.js",
   "python - Python", "dotnet - .NET", "other - Other/Custom"]

/-- The notification channel menu of the wizard. -/
def notificationOptions : List String :=
  ["slack - Slack", "discord - Discord", "email - Email", "teams - Microsoft Teams"]

/-- The answers to the provider-specific questions of
`getProviderConfig` (all prompts, whichever provider is chosen). -/
structure ProviderAnswers where
  projectId : String
  site : String
  bucket : String
  region : String
  cloudfront : String
  storageAccount : String
  resourceGroup : String
  container : String
  orgId : String
  projectName : String
  siteId : String
  deployScript : String
  deriving Repr, DecidableEq

/-- One environment record pushed by `main`: the `name` and `provider`
fields, the `type` computed by `getProviderConfig`, and the
provider-specific keys as an association list. -/
structure EnvConfig where
  name : String
  provider : String
  type : String
  extra : List (String × String)
  deriving Repr, DecidableEq

/-- The wizard's `getProviderConfig`: derive the short `type` from the
first word of the selected option and collect the provider-specific
answers (with the source's defaults). -/
def getProviderConfig (providerSel : String) (pa : ProviderAnswers) :
    String × List (String × String) :=
  let t := firstWord providerSel
  let extra : List (String × String) :=
    if t = "firebase" then
      [("projectId", pa.projectId), ("site", jsOr pa.site pa.projectId)]
    else if t = "aws" then
      [("bucket", pa.bucket), ("region", jsOr pa.region "us-east-1"),
       ("cloudfront", pa.cloudfront)]
    else if t = "azure" then
      [("storageAccount", pa.storageAccount), ("resourceGroup", pa.resourceGroup),
       ("container", jsOr pa.container "$web")]
    else if t = "vercel" then
      [("orgId", pa.orgId), ("projectName", pa.projectName)]
    else if t = "netlify" then
      [("siteId", pa.siteId)]
    else if t = "custom" then
      [("deployScript", jsOr pa.deployScript ".cicd/deploy.sh")]
    else []
  (t, extra)

/-- The raw terminal answers of one full run of the setup wizard (the
`cwdBase` field stands for `path.basename(process.cwd())`, the default
project name). -/
structure WizardAnswers where
  cwdBase : String
  projectNameAns : String
  projectTypeAns : String
  frameworkAns : String
  buildCommandAns : String
  outputDirAns : String
  nodeVersionAns : String
  enableTestingAns : String
  testCommandAns : String
  enableCoverageAns : String
  coverageThresholdAns : String
  prodProviderAns : String
  prodCfgAns : ProviderAnswers
  configureStagingAns : String
  stagingProviderAns : String
  stagingCfgAns : ProviderAnswers
  configureDevAns : String
  devProviderAns : String
  devCfgAns : ProviderAnswers
  enableCachingAns : String
  enableSecurityScanAns : String
  enableMetricsAns : String
  enableNotificationsAns : String
  notificationTypeAns : String
  deriving Repr, DecidableEq

/-- The `environments` array `main` builds: production always, staging
and development when confirmed (the source compares the full selected
option string against the short names `same` and `local`, so those
comparisons are never true). -/
def environmentsOf (a : WizardAnswers) : List EnvConfig :=
  let prodSel := (selectOption prodProviderOptions a.prodProviderAns).getD ""
  let prodCfg := getProviderConfig prodSel a.prodCfgAns
  let envs1 : List EnvConfig := [⟨"production", prodSel, prodCfg.1, prodCfg.2⟩]
  let envs2 :=
    if confirmJS a.configureStagingAns false then
      let stagingSel := (selectOption stagingProviderOptions a.stagingProviderAns).getD ""
      let stagingCfg :=
        if stagingSel = "same" then (prodCfg.1, prodCfg.2 ++ [("environment", "staging")])
        else getProviderConfig stagingSel a.stagingCfgAns
      envs1 ++ [⟨"staging", if stagingSel = "same" then prodSel else stagingSel,
        stagingCfg.1, stagingCfg.2⟩]
    else envs1
  if confirmJS a.configureDevAns false then
    let devSel := (selectOption devProviderOptions a.devProviderAns).getD ""
    if devSel ≠ "local" then
      let devCfg := getProviderConfig devSel a.devCfgAns
      envs2 ++ [⟨"development", devSel, devCfg.1, devCfg.2⟩]
    else envs2
  else envs2

/-- The `project` block of the configuration object. -/
structure ProjectCfg where
  name : String
  type : String
  framework : String
  deriving Repr, DecidableEq

/-- The `build` block of the configuration object. -/
structure BuildCfg where
  command : String
  outputDir : String
  nodeVersion : String
  deriving Repr, DecidableEq

/-- The `coverage` block (`threshold = none` models `NaN` from
`parseInt` on a non-numeric answer). -/
structure CoverageCfg where
  enabled : Bool
  threshold : Option Int
  deriving Repr, DecidableEq

/-- The `testing` block of the configuration object. -/
structure TestingCfg where
  enabled : Bool
  command : String
  coverage : CoverageCfg
  deriving Repr, DecidableEq

/-- The `advanced` block of the configuration object. -/
structure AdvancedCfg where
  caching : Bool
  securityScan : Bool
  metrics : Bool
  deriving Repr, DecidableEq

/-- The configuration object written to `.cicd/config.json`. The
`notifications` field is `some t` for the record with `type` `t` and
`enabled` true, and `none` for the empty object written when
notifications are disabled. -/
structure CicdConfig where
  project : ProjectCfg
  build : BuildCfg
  testing : TestingCfg
  providers : List (String × EnvConfig)
  notifications : Option String
  advanced : AdvancedCfg
  deriving Repr, DecidableEq

/-- JavaScript property assignment `obj[k] = v` on an association list:
replace in place or append. -/
def setKey : List (String × EnvConfig) → String → EnvConfig → List (String × EnvConfig)
  | [], k, v => [(k, v)]
  | (k0, v0) :: t, k, v =>
    if k0 = k then (k0, v) :: t else (k0, v0) :: setKey t k v

/-- The configuration object `main` assembles from the answers,
including the `environments.forEach` loop that fills `providers`. -/
def mkConfig (a : WizardAnswers) : CicdConfig :=
  let projectType := (selectOption projectTypeOptions a.projectTypeAns).getD ""
  let framework := (selectOption frameworkOptions a.frameworkAns).getD ""
  let enableTesting := confirmJS a.enableTestingAns false
  let coverageThreshold : Option Int :=
    if enableTesting && confirmJS a.enableCoverageAns false then
      parseIntJS (jsOr a.coverageThresholdAns "80")
    else some 80
  { project := ⟨jsOr a.projectNameAns a.cwdBase, firstWord projectType, firstWord framework⟩
    build := ⟨jsOr a.buildCommandAns "npm run build", jsOr a.outputDirAns "dist",
      jsOr a.nodeVersionAns "18"⟩
    testing := ⟨enableTesting,
      if enableTesting then jsOr a.testCommandAns "npm test" else "npm test",
      ⟨(coverageThreshold.map (fun t => decide (0 < t))).getD false, coverageThreshold⟩⟩
    providers := (environmentsOf a).foldl (fun l e => setKey l e.name e) []
    notifications :=
      if confirmJS a.enableNotificationsAns false then
        some ((selectOption notificationOptions a.notificationTypeAns).getD "")
      else none
    advanced := ⟨confirmJS a.enableCachingAns true, confirmJS a.enableSecurityScanAns true,
      confirmJS a.enableMetricsAns true⟩ }

/-- JavaScript `Set.prototype.add` on an insertion-ordered list. -/
def addSecret (l : List String) (x : String) : List String :=
  if x ∈ l then l else l ++ [x]

/-- One step of the provider switch of `getRequiredSecrets`. -/
def providerSecrets (acc : List String) (e : EnvConfig) : List String :=
  if e.type = "firebase" then addSecret acc "FIREBASE_TOKEN"
  else if e.type = "aws" then
    addSecret (addSecret acc "AWS_ACCESS_KEY_ID") "AWS_SECRET_ACCESS_KEY"
  else if e.type = "azure" then addSecret acc "AZURE_CREDENTIALS"
  else if e.type = "vercel" then addSecret acc "VERCEL_TOKEN"
  else if e.type = "netlify" then
    addSecret (addSecret acc "NETLIFY_AUTH_TOKEN") "NETLIFY_SITE_ID"
  else acc

/-- The wizard's `getRequiredSecrets`: a `Set` filled from every
configured provider's `type`, then from `notifications.type` compared
against the short channel names. -/
def getRequiredSecrets (c : CicdConfig) : List String :=
  let s1 := c.providers.foldl (fun acc p => providerSecrets acc p.2) []
  if c.notifications = some "slack" then addSecret s1 "SLACK_WEBHOOK"
  else if c.notifications = some "discord" then addSecret s1 "DISCORD_WEBHOOK"
  else s1

/-- The JSON values occurring in the written configuration file. -/
inductive Jsn where
  | str : String → Jsn
  | int : Int → Jsn
  | bool : Bool → Jsn
  | null : Jsn
  | obj : List (String × Jsn) → Jsn
  deriving Repr

/-- JSON rendering of one environment record (spread order of
`\x7bname, provider, ...config\x7d`). -/
def envToJson (e : EnvConfig) : Jsn :=
  .obj ([("name", .str e.name), ("provider", .str e.provider), ("type", .str e.type)] ++
    e.extra.map (fun p => (p.1, Jsn.str p.2)))

/-- JSON rendering of the coverage block (`JSON.stringify` turns `NaN`
into `null`). -/
def coverageToJson (c : CoverageCfg) : Jsn :=
  .obj [("enabled", .bool c.enabled),
        ("threshold", match c.threshold with | some t => .int t | none => .null)]

/-- JSON rendering of the whole configuration object, with the key
order of the object literal in `main`. -/
def configToJson (c : CicdConfig) : Jsn :=
  .obj [("project", .obj [("name", .str c.project.name), ("type", .str c.project.type),
          ("framework", .str c.project.framework)]),
        ("build", .obj [("command", .str c.build.command),
          ("outputDir", .str c.build.outputDir),
          ("nodeVersion", .str c.build.nodeVersion)]),
        ("testing", .obj [("enabled", .bool c.testing.enabled),
          ("command", .str c.testing.command),
          ("coverage", coverageToJson c.testing.coverage)]),
        ("providers", .obj (c.providers.map (fun p => (p.1, envToJson p.2)))),
        ("notifications", match c.notifications with
          | some t => .obj [("type", .str t), ("enabled", .bool true)]
          | none => .obj []),
        ("advanced", .obj [("caching", .bool c.advanced.caching),
          ("securityScan", .bool c.advanced.securityScan),
          ("metrics", .bool c.advanced.metrics)])]

/-- Top-level keys of a JSON value. -/
def topKeys : Jsn → List String
  | .obj fs => fs.map Prod.fst
  | _ => []

/-- Look an environment up by name. -/
def lookupEnv : List (String × EnvConfig) → String → Option EnvConfig
  | [], _ => none
  | (k, v) :: t, n => if k = n then some v else lookupEnv t n

/-- Render a boolean the way a JavaScript template literal does. -/
def boolStr (b : Bool) : String := if b then "true" else "false"

/-- The wizard's `generateWorkflow`: the GitHub Actions workflow text
(`config.providers.production?.type || 'firebase'` picks the provider). -/
def generateWorkflow (c : CicdConfig) : String :=
  let prodProvider :=
    jsOr (match lookupEnv c.providers "production" with
          | some e => e.type
          | none => "") "firebase"
  "name: Deploy Pipeline\n# Generated by Universal CI/CD Setup\n\non:\n  push:\n    branches:\n      - main\n      - staging\n      - develop\n  workflow_dispatch:\n    inputs:\n      environment:\n        description: \x27Deployment environment\x27\n        required: true\n        type: choice\n        options:\n          - production\n          - staging\n          - development\n\njobs:\n  deploy:\n    name: Deploy to Cloud\n    uses: sirsimaster/universal-cicd/.github/workflows/universal-deploy.yml@main\n    with:\n      provider: \x27" ++
    prodProvider ++
    "\x27\n      environment: $\x7b\x7b github.event.inputs.environment || (github.ref == \x27refs/heads/main\x27 && \x27production\x27) || (github.ref == \x27refs/heads/staging\x27 && \x27staging\x27) || \x27development\x27 \x7d\x7d\n      node-version: \x27" ++
    c.build.nodeVersion ++ "\x27\n      build-command: \x27" ++ c.build.command ++
    "\x27\n      test-command: \x27" ++ c.testing.command ++
    "\x27\n      output-directory: \x27" ++ c.build.outputDir ++
    "\x27\n      enable-testing: " ++ boolStr c.testing.enabled ++
    "\n      enable-caching: " ++ boolStr c.advanced.caching ++
    "\n      enable-security-scan: " ++ boolStr c.advanced.securityScan ++
    "\n      enable-metrics: " ++ boolStr c.advanced.metrics ++
    "\n    secrets: inherit\n"

/-- Provider-specific value of an environment, `undefined` rendered the
way a template literal renders a missing property. -/
def extraStr (e : EnvConfig) (k : String) : String :=
  (List.lookup k e.extra).getD "undefined"

/-- JavaScript truthiness of a provider-specific value. -/
def extraTruthy (e : EnvConfig) (k : String) : Bool :=
  match List.lookup k e.extra with
  | none => false
  | some s => !(s == "")

/-- The wizard's `generateEnvExample` for one environment. -/
def generateEnvExample (e : EnvConfig) : String :=
  let first := "# " ++ toUpperJS e.name ++ " Environment Variables\n"
  let lines : List String :=
    if e.type = "firebase" then
      ["FIREBASE_TOKEN=your-firebase-token",
       "FIREBASE_PROJECT=" ++ extraStr e "projectId"]
    else if e.type = "aws" then
      ["AWS_ACCESS_KEY_ID=your-access-key", "AWS_SECRET_ACCESS_KEY=your-secret-key",
       "AWS_REGION=" ++ extraStr e "region", "AWS_S3_BUCKET=" ++ extraStr e "bucket"] ++
      (if extraTruthy e "cloudfront" then
        ["AWS_CLOUDFRONT_ID=" ++ extraStr e "cloudfront"] else [])
    else if e.type = "azure" then
      ["AZURE_CREDENTIALS=\x7b\"clientId\":\"\",\"clientSecret\":\"\",\"subscriptionId\":\"\",\"tenantId\":\"\"\x7d",
       "AZURE_STORAGE_ACCOUNT=" ++ extraStr e "storageAccount",
       "AZURE_RESOURCE_GROUP=" ++ extraStr e "resourceGroup"]
    else if e.type = "vercel" then
      ["VERCEL_TOKEN=your-vercel-token"] ++
      (if extraTruthy e "orgId" then ["VERCEL_ORG_ID=" ++ extraStr e "orgId"] else [])
    else if e.type = "netlify" then
      ["NETLIFY_AUTH_TOKEN=your-netlify-token",
       "NETLIFY_SITE_ID=" ++ extraStr e "siteId"]
    else []
  joinSep "\n" (first :: lines)

/-- Content of one file written by the wizard. -/
inductive FileContent where
  | json : Jsn → FileContent
  | text : String → FileContent

/-- One file written by the wizard. -/
structure FileWrite where
  path : String
  content : FileContent

/-- The files a completed run of `main` writes: the configuration, the
GitHub Actions workflow, and one env example per environment. -/
def mainWrites (a : WizardAnswers) : List FileWrite :=
  ⟨".cicd/config.json", .json (configToJson (mkConfig a))⟩ ::
  ⟨".github/workflows/deploy.yml", .text (generateWorkflow (mkConfig a))⟩ ::
  (environmentsOf a).map
    (fun e => ⟨".cicd/" ++ e.name ++ ".env.example", .text (generateEnvExample e)⟩)

/-- C4: for every completed run of the setup wizard, the JSON
configuration object written to `.cicd/config.json` has exactly the six
top-level keys `project`, `build`, `testing`, `providers`,
`notifications` and `advanced` (in the order of the object literal in
`main`; the `environments.forEach` loop only fills the `providers`
object and never adds a top-level key), and the wizard also writes the
GitHub Actions workflow file `.github/workflows/deploy.yml`. -/
theorem config_schema_and_workflow_write (a : WizardAnswers) :
    topKeys (configToJson (mkConfig a)) =
      ["project", "build", "testing", "providers", "notifications", "advanced"] ∧
    ∃ w ∈ mainWrites a, w.path = ".github/workflows/deploy.yml" := by
  constructor
  · rfl
  · refine ⟨⟨".github/workflows/deploy.yml", .text (generateWorkflow (mkConfig a))⟩, ?_, rfl⟩
    rw [mainWrites]
    exact List.mem_cons_of_mem _ (List.mem_cons_self _ _)

lemma addSecret_nodup {l : List String} (h : l.Nodup) (x : String) :
    (addSecret l x).Nodup := by
  rw [addSecret]
  split
  · exact h
  · next hx => simp [List.nodup_append, h, hx]

lemma providerSecrets_nodup {acc : List String} (h : acc.Nodup) (e : EnvConfig) :
    (providerSecrets acc e).Nodup := by
  unfold providerSecrets
  split_ifs <;>
    first
      | exact h
      | exact addSecret_nodup h _
      | exact addSecret_nodup (addSecret_nodup h _) _

lemma foldl_secrets_nodup :
    ∀ (ps : List (String × EnvConfig)) (acc : List String), acc.Nodup →
      (ps.foldl (fun acc p => providerSecrets acc p.2) acc).Nodup
  | [], _, h => h
  | p :: ps, _, h => foldl_secrets_nodup ps _ (providerSecrets_nodup h p.2)

/-- C10: for every configuration, `getRequiredSecrets` returns a list
without duplicate secret names: it accumulates into a JavaScript `Set`,
modelled as ordered insertion that skips elements already present, so
several environments with the same provider contribute each secret once. -/
theorem getRequiredSecrets_nodup (c : CicdConfig) : (getRequiredSecrets c).Nodup := by
  rw [getRequiredSecrets]
  have h1 := foldl_secrets_nodup c.providers [] (by simp)
  split_ifs <;> first | exact addSecret_nodup h1 _ | exact h1

/-- C9: for every non-empty options list and every input string,
`selectOption` returns an element of the list: an answer that
`parseInt` reads as `k` with `1 ≤ k ≤ length` selects the `k`-th
option, any other answer (no digits, zero, negative, or past the end)
selects the first option, and the result is never out of range. -/
theorem selectOption_spec (options : List String) (answer : String) (hne : options ≠ []) :
    (∀ k : Int, parseIntJS answer = some k → 1 ≤ k → k ≤ (options.length : Int) →
        selectOption options answer = options[(k - 1).toNat]?) ∧
    (∀ k : Int, parseIntJS answer = some k → (k < 1 ∨ (options.length : Int) < k) →
        selectOption options answer = options[0]?) ∧
    (parseIntJS answer = none → selectOption options answer = options[0]?) ∧
    (∃ r, selectOption options answer = some r ∧ r ∈ options) := by
  obtain ⟨a, t, rfl⟩ : ∃ a t, options = a :: t := by
    cases options with
    | nil => exact absurd rfl hne
    | cons a t => exact ⟨a, t, rfl⟩
  refine ⟨?_, ?_, ?_, ?_⟩
  · intro k hk h1 h2
    simp only [selectOption, hk]
    rw [if_pos ⟨by omega, by omega⟩]
  · intro k hk h2
    simp only [selectOption, hk]
    rw [if_neg (by omega)]
  · intro h
    simp only [selectOption, h]
  · cases hp : parseIntJS answer with
    | none => exact ⟨a, by simp only [selectOption, hp]; simp, by simp⟩
    | some k =>
      by_cases hin : 0 ≤ k - 1 ∧ k - 1 < ((a :: t).length : Int)
      · have hlt : (k - 1).toNat < (a :: t).length := by
          rcases hin with ⟨h1, h2⟩
          omega
        refine ⟨(a :: t)[(k - 1).toNat], ?_, ?_⟩
        · simp only [selectOption, hp]
          rw [if_pos hin]
          exact List.getElem?_eq_getElem hlt
        · exact List.getElem_mem hlt
      · refine ⟨a, ?_, by simp⟩
        simp only [selectOption, hp]
        rw [if_neg hin]
        simp

/-- Witness for `selectOption_spec`: answer `2` picks the second of
three options. -/
theorem selectOption_spec_witness :
    selectOption ["first", "second", "third"] "2" = some "second" := by
  have h := (selectOption_spec ["first", "second", "third"] "2" (by decide)).1 2
    (by decide) (by decide) (by decide)
  simpa using h

/-- Provider answers for a firebase production environment. -/
def demoProviderAnswers : ProviderAnswers :=
  ⟨"demo-prj", "", "", "", "", "", "", "", "", "", "", ""⟩

/-- A scripted wizard run: firebase production environment, no staging,
no development, notifications enabled with Slack chosen (menu answer
`1`). -/
def slackAnswers : WizardAnswers :=
  ⟨"demo", "demo", "1", "6", "", "", "", "n", "", "", "", "1",
   demoProviderAnswers, "n", "", demoProviderAnswers, "n", "",
   demoProviderAnswers, "", "", "", "y", "1"⟩

/-- C2 (code bug): the claim says the written configuration records the
selected provider for each environment and that `getRequiredSecrets`
adds `SLACK_WEBHOOK` when the Slack channel is chosen. On the run
`slackAnswers` the provider field does record the selection, but the
configuration stores the full menu string `slack - Slack` in
`notifications.type` while `getRequiredSecrets` compares that field
against the short name `slack`, so the comparison is never true and the
webhook secret is missing from the result. -/
theorem getRequiredSecrets_misses_webhook :
    (mkConfig slackAnswers).notifications = some "slack - Slack" ∧
    (mkConfig slackAnswers).providers.map (fun p => (p.1, p.2.provider, p.2.type)) =
      [("production", "firebase - Firebase Hosting", "firebase")] ∧
    getRequiredSecrets (mkConfig slackAnswers) = ["FIREBASE_TOKEN"] := by
  decide

/-- JavaScript `hay.includes(pat)` on strings. -/
def jsIncludes (hay pat : String) : Bool := hasSub hay.data pat.data

/-- JavaScript `s.replace(/\/$/, "")`: remove one trailing slash. -/
def stripTrailSlash (l : List Char) : List Char :=
  match l.reverse with
  | '/' :: r => r.reverse
  | _ => l

/-- The path heuristic of the sidebar loader's `resolveBase`. -/
def sidebarHeuristic (path : String) : String :=
  if jsIncludes path "/admin/development/" then "../"
  else if jsIncludes path "/admin/contracts/" then "../"
  else if jsIncludes path "/admin/" then ""
  else "admin/"

/-- The sidebar loader's `resolveBase`: an explicit non-blank
`data-base` attribute wins (with one trailing slash removed), otherwise
the path heuristic applies. -/
def resolveBaseSidebar (dataBase : Option String) (path : String) : String :=
  match dataBase with
  | some b => if trimJS b.data ≠ [] then ⟨stripTrailSlash b.data⟩ else sidebarHeuristic path
  | none => sidebarHeuristic path

lemma beginsWith_of_append :
    ∀ (p q s : List Char), beginsWith (p ++ q) s = true → beginsWith p s = true
  | [], _, _, _ => rfl
  | a :: p, q, [], h => by simp [beginsWith] at h
  | a :: p, q, b :: s, h => by
    simp only [List.cons_append, beginsWith, Bool.and_eq_true] at h ⊢
    exact ⟨h.1, beginsWith_of_append p q s h.2⟩

lemma hasSub_of_append :
    ∀ (hay p q : List Char), hasSub hay (p ++ q) = true → hasSub hay p = true
  | [], p, q, h => by
    simp only [hasSub, List.isEmpty_iff] at h ⊢
    exact (List.append_eq_nil.mp h).1
  | a :: t, p, q, h => by
    simp only [hasSub, Bool.or_eq_true] at h ⊢
    rcases h with h | h
    · exact Or.inl (beginsWith_of_append p q _ h)
    · exact Or.inr (hasSub_of_append t p q h)

/-- C3: with no explicit `data-base` attribute, the sidebar loader's
`resolveBase` returns the documented relative prefix for each
enumerated path pattern: `../` for every pathname containing
`/admin/development/`, `../` for `/admin/contracts/`, the empty prefix
for other pathnames containing `/admin/`, and `admin/` for all other
pathnames. -/
theorem resolveBase_sidebar_patterns (path : String) :
    (jsIncludes path "/admin/development/" = true →
        resolveBaseSidebar none path = "../") ∧
    (jsIncludes path "/admin/contracts/" = true →
        resolveBaseSidebar none path = "../") ∧
    (jsIncludes path "/admin/" = true → jsIncludes path "/admin/development/" = false →
        jsIncludes path "/admin/contracts/" = false →
        resolveBaseSidebar none path = "") ∧
    (jsIncludes path "/admin/" = false → resolveBaseSidebar none path = "admin/") := by
  refine ⟨?_, ?_, ?_, ?_⟩
  · intro h
    simp [resolveBaseSidebar, sidebarHeuristic, h]
  · intro h
    cases hdev : jsIncludes path "/admin/development/" with
    | true => simp [resolveBaseSidebar, sidebarHeuristic, hdev]
    | false => simp [resolveBaseSidebar, sidebarHeuristic, hdev, h]
  · intro h h1 h2
    simp [resolveBaseSidebar, sidebarHeuristic, h, h1, h2]
  · intro h
    have hdev : jsIncludes path "/admin/development/" = false := by
      cases hd : jsIncludes path "/admin/development/" with
      | false => rfl
      | true =>
        exfalso
        have heq : ("/admin/development/").data = ("/admin/").data ++ ("development/").data := by
          decide
        have hd2 : hasSub path.data (("/admin/").data ++ ("development/").data) = true := by
          rw [← heq]; exact hd
        have := hasSub_of_append path.data _ _ hd2
        rw [show hasSub path.data ("/admin/").data = jsIncludes path "/admin/" from rfl, h] at this
        cases this
    have hcon : jsIncludes path "/admin/contracts/" = false := by
      cases hd : jsIncludes path "/admin/contracts/" with
      | false => rfl
      | true =>
        exfalso
        have heq : ("/admin/contracts/").data = ("/admin/").data ++ ("contracts/").data := by
          decide
        have hd2 : hasSub path.data (("/admin/").data ++ ("contracts/").data) = true := by
          rw [← heq]; exact hd
        have := hasSub_of_append path.data _ _ hd2
        rw [show hasSub path.data ("/admin/").data = jsIncludes path "/admin/" from rfl, h] at this
        cases this
    simp [resolveBaseSidebar, sidebarHeuristic, h, hdev, hcon]

/-- Witness for `resolveBase_sidebar_patterns`: a development subpage
resolves to `../`. -/
theorem resolveBase_sidebar_patterns_witness :
    resolveBaseSidebar none "/admin/development/dashboard.html" = "../" :=
  (resolveBase_sidebar_patterns "/admin/development/dashboard.html").1 (by decide)

/-- Character class of the over-escaped token regexes of
`universal-header.js`: the literal `/\\[\\[NAME\\]\\]/g` written there
parses as one backslash, a character class holding a backslash, an
opening bracket and the letters of `NAME`, another backslash, and a
closing bracket. -/
def clsOf (letters : List Char) (c : Char) : Bool :=
  c == '\\' || c == '[' || letters.contains c

/-- Letters of the `BASE` token class. -/
def baseLetters : List Char := ['B', 'A', 'S', 'E']

/-- Letters of the `TYPE` token class. -/
def typeLetters : List Char := ['T', 'Y', 'P', 'E']

/-- Letters of the `TITLE` token class. -/
def titleLetters : List Char := ['T', 'I', 'T', 'L', 'E']

/-- Letters of the `SUBTITLE` token class. -/
def subtitleLetters : List Char := ['S', 'U', 'B', 'T', 'I', 'T', 'L', 'E']

/-- Letters of the `SEARCH_PLACEHOLDER` token class. -/
def searchLetters : List Char :=
  ['S', 'E', 'A', 'R', 'C', 'H', '_', 'P', 'L', 'A', 'C', 'E', 'H', 'O', 'L', 'D', 'E', 'R']

/-- Characters of the `USER_NAME` token class (the group syntax inside
the over-escaped class is literal characters there). -/
def userLetters : List Char :=
  ['U', 'S', 'E', 'R', '_', 'N', 'A', 'M', 'E', '(', '?', ':', 'd', '+', ')']

/-- Global replacement of the four-character pattern backslash,
class-member, backslash, closing bracket, which is what each
over-escaped token regex of `universal-header.js` actually matches. -/
def replBug4 (cls : Char → Bool) (repl : List Char) : List Char → List Char
  | '\\' :: c :: '\\' :: ']' :: rest =>
    if cls c then repl ++ replBug4 cls repl rest
    else '\\' :: replBug4 cls repl (c :: '\\' :: ']' :: rest)
  | a :: rest => a :: replBug4 cls repl rest
  | [] => []

/-- The configuration fields `processTokens` substitutes. -/
structure UnivHeaderConfig where
  base : String
  type : String
  title : String
  subtitle : String
  userName : String
  searchPlaceholder : String
  deriving Repr, DecidableEq

/-- The universal header's `processTokens`: the six replacements in
source order; the `USER_NAME` callback returns the user name (its two
groups can never participate in a match of the four-character pattern),
or the empty string when the user name is empty. -/
def processTokens (html : String) (cfg : UnivHeaderConfig) : String :=
  let h1 := replBug4 (clsOf baseLetters) cfg.base.data html.data
  let h2 := replBug4 (clsOf typeLetters) cfg.type.data h1
  let h3 := replBug4 (clsOf titleLetters) cfg.title.data h2
  let h4 := replBug4 (clsOf subtitleLetters) cfg.subtitle.data h3
  let h5 := replBug4 (clsOf searchLetters) cfg.searchPlaceholder.data h4
  let h6 := replBug4 (clsOf userLetters)
    (if cfg.userName = "" then [] else cfg.userName.data) h5
  ⟨h6⟩

/-- Global replacement of the literal eight-character token
`\x5b\x5bBASE\x5d\x5d`, as the sidebar and admin header loaders do with
`html.replace(/\[\[BASE\]\]/g, base)`. -/
def replBaseTok (repl : List Char) : List Char → List Char
  | '[' :: '[' :: 'B' :: 'A' :: 'S' :: 'E' :: ']' :: ']' :: rest =>
    repl ++ replBaseTok repl rest
  | a :: rest => a :: replBaseTok repl rest
  | [] => []

/-- The sidebar (and admin header) template substitution. -/
def sidebarSubstituteBase (html base : String) : String :=
  ⟨replBaseTok base.data html.data⟩

/-- A concrete configuration for the universal header. -/
def demoUnivConfig : UnivHeaderConfig :=
  ⟨"../", "public", "Assiduous Properties", "", "User", "Search..."⟩

/-- C5 (code bug): the claim says each loader replaces every occurrence
of the literal `\x5b\x5bBASE\x5d\x5d` token before injecting. The
sidebar and admin header loaders do (first conjunct), but the universal
header's `processTokens` never does: its regex literal is over-escaped
(`/\\\x5b\\\x5b...`), so it matches backslash sequences instead of the
token, and the token survives in the injected markup (second and third
conjuncts, evaluated on a template that contains the token). -/
theorem processTokens_leaves_base_token :
    sidebarSubstituteBase "<a href=\"[[BASE]]admin/index.html\">x</a>" "../" =
      "<a href=\"../admin/index.html\">x</a>" ∧
    processTokens "<a href=\"[[BASE]]admin/index.html\">x</a>" demoUnivConfig =
      "<a href=\"[[BASE]]admin/index.html\">x</a>" ∧
    jsIncludes
      (processTokens "<a href=\"[[BASE]]admin/index.html\">x</a>" demoUnivConfig)
      "[[BASE]]" = true := by
  decide

/-- Outcome of the `fetch` of the universal header template. -/
inductive FetchOutcome where
  | success : Nat → String → FetchOutcome
  | networkError : FetchOutcome
  deriving Repr, DecidableEq

/-- The WHATWG `Response.ok` predicate used by `response.ok`. -/
def respOk (status : Nat) : Bool := decide (200 ≤ status ∧ status < 300)

/-- What replaces the `universal-header-root` element at the end of the
loader's promise chain. -/
inductive InjectResult where
  | template : String → InjectResult
  | fallback : String → InjectResult
  deriving Repr, DecidableEq

/-- The hardcoded fallback header markup of `createFallbackHeader`
(template literal with the resolved base interpolated into the four
navigation links). -/
def fallbackHeaderHtml (base : String) : String :=
  "\n        <header class=\"universal-header public-header\" style=\"background: white; border-bottom: 1px solid #e5e7eb; padding: 1rem 1.5rem; display: flex; justify-content: space-between; align-items: center;\">\n          <div style=\"display: flex; align-items: center; gap: 0.5rem;\">\n            <svg width=\"24\" height=\"24\" viewBox=\"0 0 24 24\" fill=\"none\" stroke=\"#60A3D9\" stroke-width=\"2\">\n              <path d=\"M3 9l9-7 9 7v11a2 2 0 0 1-2 2H5a2 2 0 0 1-2-2z\"></path>\n              <polyline points=\"9 22 9 12 15 12 15 22\"></polyline>\n            </svg>\n            <div>\n              <span style=\"font-size: 1.125rem; font-weight: 700; color: #111827;\">Assiduous</span><br>\n              <span style=\"font-size: 0.75rem; color: #6b7280; text-transform: uppercase; letter-spacing: 0.05em;\">Properties</span>\n            </div>\n          </div>\n          <div style=\"display: flex; align-items: center; gap: 1rem;\">\n            <nav style=\"display: flex; gap: 1.5rem;\">\n              <a href=\"" ++
  base ++
  "/\" style=\"color: #6b7280; text-decoration: none; font-size: 0.875rem;\">Home</a>\n              <a href=\"" ++
  base ++
  "/properties.html\" style=\"color: #6b7280; text-decoration: none; font-size: 0.875rem;\">Properties</a>\n              <a href=\"" ++
  base ++
  "/agents.html\" style=\"color: #6b7280; text-decoration: none; font-size: 0.875rem;\">Find Agents</a>\n              <a href=\"" ++
  base ++
  "/about.html\" style=\"color: #6b7280; text-decoration: none; font-size: 0.875rem;\">About</a>\n            </nav>\n            <div style=\"display: flex; gap: 0.75rem;\">\n              <a href=\"#\" onclick=\"showLogin()\" style=\"color: #6b7280; text-decoration: none; font-size: 0.875rem;\">Sign In</a>\n              <a href=\"#\" onclick=\"showSignup()\" style=\"background: #60A3D9; color: white; padding: 0.5rem 1rem; border-radius: 0.375rem; text-decoration: none; font-size: 0.875rem;\">Get Started</a>\n            </div>\n          </div>\n        </header>\n      "

/-- The universal header's promise chain: a non-OK response throws,
and both the throw and a network error land in the catch handler,
which replaces the root element with the fallback markup; an OK
response is token-processed and injected. -/
def univInjectResult (cfg : UnivHeaderConfig) (fetch : FetchOutcome) : InjectResult :=
  match fetch with
  | .networkError => .fallback (fallbackHeaderHtml cfg.base)
  | .success st body =>
    if respOk st then .template (processTokens body cfg)
    else .fallback (fallbackHeaderHtml cfg.base)

/-- C6: for every run of the universal header loader in which the
template fetch fails (a network error or a non-OK HTTP status), the
loader replaces the root element with the hardcoded fallback header
markup instead of leaving the page without a header or raising an
error. -/
theorem univHeader_fallback_on_fetch_failure (cfg : UnivHeaderConfig) (fetch : FetchOutcome)
    (h : fetch = .networkError ∨ ∃ st body, fetch = .success st body ∧ respOk st = false) :
    univInjectResult cfg fetch = .fallback (fallbackHeaderHtml cfg.base) := by
  rcases h with rfl | ⟨st, body, rfl, hst⟩
  · rfl
  · simp [univInjectResult, hst]

/-- Witness for `univHeader_fallback_on_fetch_failure` at an HTTP 404
response. -/
theorem univHeader_fallback_on_fetch_failure_witness :
    univInjectResult demoUnivConfig (.success 404 "not found") =
      .fallback (fallbackHeaderHtml "../") :=
  univHeader_fallback_on_fetch_failure demoUnivConfig _
    (Or.inr ⟨404, "not found", rfl, by decide⟩)

/-- One parsed action button from the `data-actions` JSON. -/
structure ActionSpec where
  label : String
  icon : Option String
  onclick : Option String
  href : Option String
  primary : Bool
  deriving Repr, DecidableEq

/-- The data attributes read by the admin header loader. -/
structure AdminHeaderAttrs where
  dataTitle : Option String
  dataSubtitle : Option String
  dataSearchPlaceholder : Option String
  dataActions : Option String
  deriving Repr, DecidableEq

/-- The configuration object built by the admin header's `parseConfig`. -/
structure AdminHeaderConfig where
  title : String
  subtitle : String
  searchPlaceholder : String
  actions : List ActionSpec
  deriving Repr, DecidableEq

/-- JavaScript `getAttribute(...) || default` (`null` and the empty
string are falsy). -/
def jsOrOpt (o : Option String) (d : String) : String :=
  match o with
  | none => d
  | some s => if s = "" then d else s

/-- The admin header loader's `parseConfig`, parameterised by the host
`JSON.parse` (`none` models a parse exception). The boolean records
whether the catch handler logged its warning. -/
def adminParseConfig (jp : String → Option (List ActionSpec)) (root : AdminHeaderAttrs) :
    AdminHeaderConfig × Bool :=
  let cfg0 : AdminHeaderConfig :=
    ⟨jsOrOpt root.dataTitle "Admin Portal",
     jsOrOpt root.dataSubtitle "Manage your platform efficiently",
     jsOrOpt root.dataSearchPlaceholder "Search across all modules...",
     []⟩
  match root.dataActions with
  | none => (cfg0, false)
  | some s =>
    if s = "" then (cfg0, false)
    else
      match jp s with
      | some acts => (⟨cfg0.title, cfg0.subtitle, cfg0.searchPlaceholder, acts⟩, false)
      | none => (cfg0, true)

/-- The data attributes read by the universal header loader. -/
structure UnivHeaderAttrs where
  dataType : Option String
  dataTitle : Option String
  dataSubtitle : Option String
  dataUserName : Option String
  dataSearchPlaceholder : Option String
  dataShowAuth : Option String
  dataActions : Option String
  deriving Repr, DecidableEq

/-- The full configuration object `injectHeader` builds before
fetching. -/
structure UnivFullConfig where
  base : String
  type : String
  title : String
  subtitle : String
  userName : String
  searchPlaceholder : String
  showAuth : Bool
  actions : List ActionSpec
  deriving Repr, DecidableEq

/-- The configuration-building part of the universal header's
`injectHeader`, parameterised by the host `JSON.parse`; the boolean
records whether the catch handler logged its warning. -/
def univBuildConfig (jp : String → Option (List ActionSpec)) (root : UnivHeaderAttrs)
    (base : String) : UnivFullConfig × Bool :=
  let actsW : List ActionSpec × Bool :=
    match root.dataActions with
    | none => ([], false)
    | some s =>
      if s = "" then ([], false)
      else
        match jp s with
        | some acts => (acts, false)
        | none => ([], true)
  (⟨base,
    jsOrOpt root.dataType "public",
    jsOrOpt root.dataTitle "Assiduous Properties",
    jsOrOpt root.dataSubtitle "",
    jsOrOpt root.dataUserName "User",
    jsOrOpt root.dataSearchPlaceholder "Search...",
    decide (root.dataShowAuth = some "true"),
    actsW.1⟩, actsW.2)

/-- C8 counterexample: the empty string is not valid JSON (the host
`JSON.parse` rejects it, here a parser rejecting every input), yet with
`data-actions=""` both loaders skip the parse behind their truthiness
guards (`if (actionsAttr)` / `if (actionsData)`) and log no warning
(the boolean is `false`), refuting the claim's warning conjunct on a
value inside its scope; actions stay empty and the other fields keep
their attribute-or-default values. -/
theorem loaders_empty_actions_no_warning :
    ((fun _ => none : String → Option (List ActionSpec)) "" = none) ∧
    adminParseConfig (fun _ => none) ⟨none, none, none, some ""⟩ =
      (⟨"Admin Portal", "Manage your platform efficiently",
        "Search across all modules...", []⟩, false) ∧
    univBuildConfig (fun _ => none)
        ⟨none, none, none, none, none, none, some ""⟩ "" =
      (⟨"", "public", "Assiduous Properties", "", "User", "Search...",
        false, []⟩, false) := by
  refine ⟨rfl, by decide, by decide⟩

/-- C8 (amended; the original claim fails on the empty `data-actions`
value, see `loaders_empty_actions_no_warning`): for every non-empty
`data-actions` value the host `JSON.parse` rejects, both client-side
loaders log a warning (the boolean), leave the parsed actions as the
empty list, and keep every other configuration field exactly as read
from its data attribute or default, so the injection continues with
that configuration. For the empty-string value (also invalid JSON) the
truthiness guard skips the parse: actions stay empty and injection
continues, but no warning is logged. -/
theorem loaders_invalid_actions_fallback
    (jp : String → Option (List ActionSpec)) (s : String) (base : String)
    (attrsA : AdminHeaderAttrs) (attrsU : UnivHeaderAttrs)
    (hA : attrsA.dataActions = some s) (hU : attrsU.dataActions = some s)
    (hs : s ≠ "") (hjp : jp s = none) :
    adminParseConfig jp attrsA =
      (⟨jsOrOpt attrsA.dataTitle "Admin Portal",
        jsOrOpt attrsA.dataSubtitle "Manage your platform efficiently",
        jsOrOpt attrsA.dataSearchPlaceholder "Search across all modules...",
        []⟩, true) ∧
    univBuildConfig jp attrsU base =
      (⟨base,
        jsOrOpt attrsU.dataType "public",
        jsOrOpt attrsU.dataTitle "Assiduous Properties",
        jsOrOpt attrsU.dataSubtitle "",
        jsOrOpt attrsU.dataUserName "User",
        jsOrOpt attrsU.dataSearchPlaceholder "Search...",
        decide (attrsU.dataShowAuth = some "true"),
        []⟩, true) := by
  constructor
  · simp [adminParseConfig, hA, hs, hjp]
  · simp [univBuildConfig, hU, hs, hjp]

/-- Witness for `loaders_invalid_actions_fallback` on a concrete
non-JSON `data-actions` value. -/
theorem loaders_invalid_actions_fallback_witness :
    adminParseConfig (fun _ => none)
        ⟨some "Dashboard", none, none, some "not json"⟩ =
      (⟨"Dashboard", "Manage your platform efficiently",
        "Search across all modules...", []⟩, true) ∧
    univBuildConfig (fun _ => none)
        ⟨none, some "Dashboard", none, none, none, none, some "not json"⟩ "" =
      (⟨"", "public", "Dashboard", "", "User", "Search...", false, []⟩, true) := by
  have h := loaders_invalid_actions_fallback (fun _ => none) "not json" ""
    ⟨some "Dashboard", none, none, some "not json"⟩
    ⟨none, some "Dashboard", none, none, none, none, some "not json"⟩
    rfl rfl (by decide) rfl
  simpa [jsOrOpt] using h
